import Mathlib

/-!
Shallow embedding of the Signal Overlay engine
(`src/components/signal-overlay/signal-overlay-engine.ts`).

Conventions of the embedding:
* JS numbers that carry prices, percentages and confidence scores are modelled
  as exact rationals (`ℚ`); every decision point of the engine (`> 60`,
  `< 65`, `Math.round`, `Math.floor`) is far from any binary-float rounding
  boundary at the values the engine produces, so the exact-rational model and
  IEEE doubles take the same branches.
* Timestamps (`Date.now()`, `epoch`, millisecond arithmetic) are integers (`ℤ`).
* The buffer is a `List` with the oldest sample first: `Array.push` appends at
  the end, `Array.shift` removes the head.
* The engine object is an explicit `EngineState`; `setInterval` handles are
  modelled as `Bool` flags (handle present / cleared); calls that the engine
  makes to the UI callback `onSignalUpdate` are collected in an event list
  (`List SignalEvent`) returned next to the updated state.
* The signal id `signal-${Date.now()}` is modelled by its variable part, the
  integer timestamp.
* Terminology bridge to the specification: the spec's HIGH classification is
  the code's OVER (last digit ≥ 5), the spec's LOW is the code's UNDER.
-/

/-- Union type `'OVER' | 'UNDER' | 'NEUTRAL'` from `types.ts`.
Spec HIGH = OVER, spec LOW = UNDER. -/
inductive Bias
  | OVER
  | UNDER
  | NEUTRAL
deriving DecidableEq, Repr

/-- `TickData` from `types.ts`: one numeric observation with a timestamp. -/
structure TickData where
  quote : ℚ
  epoch : ℤ
deriving DecidableEq, Repr

/-- `SIGNAL_DURATION = 120` seconds. -/
def SIGNAL_DURATION : ℤ := 120

/-- `MIN_TICKS_FOR_ANALYSIS = 50`. -/
def MIN_TICKS_FOR_ANALYSIS : ℕ := 50

/-- `CONFIDENCE_THRESHOLD = 65` (minimum confidence). -/
def CONFIDENCE_THRESHOLD : ℚ := 65

/-- `TICK_BUFFER_SIZE = 100` (buffer capacity). -/
def TICK_BUFFER_SIZE : ℕ := 100

/-- `MARKET = 'R_50'`. -/
def MARKET : String := "R_50"

/-- Last digit extraction from `analyzeDistribution`:
`Math.abs(Math.floor(price * 100)) % 10`. -/
def lastDigit (price : ℚ) : ℕ := ⌊price * 100⌋.natAbs % 10

/-- `DistributionAnalysis` from `types.ts`. -/
structure DistributionAnalysis where
  recentTicks : List ℕ
  overCount : ℕ
  underCount : ℕ
  overPercentage : ℚ
  underPercentage : ℚ
  bias : Bias
  confidenceScore : ℚ
deriving DecidableEq, Repr

/-- `analyzeDistribution()`: takes the last `MIN_TICKS_FOR_ANALYSIS` buffered
ticks (`slice(-50)`; fewer when the buffer is shorter — the method itself has
no minimum-size guard), maps each to its last digit, counts digits ≥ 5 as
OVER and < 5 as UNDER, and derives bias and confidence.  When the window is
empty, JS computes `0/0 = NaN`, every `NaN > 60` comparison is false and the
NEUTRAL branch is taken; `ℚ` division by zero gives `0` and takes the same
branch. -/
def analyzeDistribution (tickBuffer : List TickData) : DistributionAnalysis :=
  let recentTicks := tickBuffer.drop (tickBuffer.length - MIN_TICKS_FOR_ANALYSIS)
  let lastDigits := recentTicks.map fun tick => lastDigit tick.quote
  let overCount := lastDigits.countP fun digit => 5 ≤ digit
  let underCount := lastDigits.countP fun digit => ¬ 5 ≤ digit
  let total := lastDigits.length
  let overPercentage : ℚ := ((overCount : ℚ) / (total : ℚ)) * 100
  let underPercentage : ℚ := ((underCount : ℚ) / (total : ℚ)) * 100
  if 60 < overPercentage then
    { recentTicks := lastDigits, overCount := overCount, underCount := underCount,
      overPercentage := overPercentage, underPercentage := underPercentage,
      bias := Bias.UNDER, confidenceScore := min 95 (overPercentage + 5) }
  else if 60 < underPercentage then
    { recentTicks := lastDigits, overCount := overCount, underCount := underCount,
      overPercentage := overPercentage, underPercentage := underPercentage,
      bias := Bias.OVER, confidenceScore := min 95 (underPercentage + 5) }
  else
    { recentTicks := lastDigits, overCount := overCount, underCount := underCount,
      overPercentage := overPercentage, underPercentage := underPercentage,
      bias := Bias.NEUTRAL, confidenceScore := 50 }

/-- JS `Math.round`: round half toward positive infinity. -/
def jsRound (q : ℚ) : ℤ := ⌊q + 1 / 2⌋

/-- `SignalData` from `types.ts`.  The id `signal-${Date.now()}` is modelled
by its variable part, the creation timestamp. -/
structure SignalData where
  id : ℤ
  type : Bias
  market : String
  confidence : ℤ
  createdAt : ℤ
  expiresAt : ℤ
  remainingSeconds : ℤ
  distributionAnalysis : DistributionAnalysis
deriving DecidableEq, Repr

/-- A call to the `onSignalUpdate` subscriber callback: `some signal` for a
signal creation or countdown update, `none` for the clear-to-Idle event. -/
abbrev SignalEvent := Option SignalData

/-- Mutable fields of the `SignalOverlayEngine` class that the claims are
about.  Interval handles are modelled by their presence. -/
structure EngineState where
  currentSignal : Option SignalData
  tickBuffer : List TickData
  activeSignalIds : List ℤ
  countdownRunning : Bool
  signalGenRunning : Bool
  subscribed : Bool
  isInitialized : Bool
deriving DecidableEq, Repr

/-- `handleTickData()`: push the tick, then shift the oldest sample out when
the buffer exceeds `TICK_BUFFER_SIZE`. -/
def handleTickData (tickBuffer : List TickData) (tick : TickData) : List TickData :=
  let buffer := tickBuffer ++ [tick]
  if TICK_BUFFER_SIZE < buffer.length then buffer.tail else buffer

/-- `generateSignal()`: duplicate-id guard, then build the signal from the
analysis (the bias is copied unchanged by the `as SignalType` cast), store it
as the current signal, remember its id, notify the UI and start the
countdown timer. -/
def generateSignal (now : ℤ) (analysis : DistributionAnalysis) (s : EngineState) :
    EngineState × List SignalEvent :=
  let signalId := now
  if signalId ∈ s.activeSignalIds then (s, [])
  else
    let expiresAt := now + SIGNAL_DURATION * 1000
    let signal : SignalData :=
      { id := signalId, type := analysis.bias, market := MARKET,
        confidence := jsRound analysis.confidenceScore, createdAt := now,
        expiresAt := expiresAt, remainingSeconds := SIGNAL_DURATION,
        distributionAnalysis := analysis }
    ({ s with currentSignal := some signal,
              activeSignalIds := s.activeSignalIds ++ [signalId],
              countdownRunning := true },
     [some signal])

/-- `checkAndGenerateSignal()`: the 5-second detection poll.  Returns early
while a signal is active, while the buffer is below
`MIN_TICKS_FOR_ANALYSIS`, when confidence is below `CONFIDENCE_THRESHOLD`,
or when the bias is NEUTRAL; otherwise generates a signal. -/
def checkAndGenerateSignal (now : ℤ) (s : EngineState) : EngineState × List SignalEvent :=
  match s.currentSignal with
  | some _ => (s, [])
  | none =>
    if s.tickBuffer.length < MIN_TICKS_FOR_ANALYSIS then (s, [])
    else
      let analysis := analyzeDistribution s.tickBuffer
      if analysis.confidenceScore < CONFIDENCE_THRESHOLD then (s, [])
      else if analysis.bias ≠ Bias.NEUTRAL then generateSignal now analysis s
      else (s, [])

/-- `clearCurrentSignal()`: drop the active signal and its id, cancel the
countdown timer and notify the UI with `null`; a no-op when idle. -/
def clearCurrentSignal (s : EngineState) : EngineState × List SignalEvent :=
  match s.currentSignal with
  | none => (s, [])
  | some sig =>
    ({ s with currentSignal := none,
              activeSignalIds := s.activeSignalIds.erase sig.id,
              countdownRunning := false },
     [none])

/-- Remaining-time recomputation from the countdown callback:
`Math.max(0, Math.floor((expiresAt - now) / 1000))`. -/
def remainingSecondsCalc (expiresAt now : ℤ) : ℤ :=
  max 0 ⌊((expiresAt - now : ℤ) : ℚ) / 1000⌋

/-- One firing of the 1-second countdown interval from `startCountdown()`:
recompute remaining time from `expiresAt - now`, store and publish the
updated signal, and clear it once the remaining time reaches zero. -/
def countdownTick (now : ℤ) (s : EngineState) : EngineState × List SignalEvent :=
  match s.currentSignal with
  | none => ({ s with countdownRunning := false }, [])
  | some sig =>
    let remainingSeconds := remainingSecondsCalc sig.expiresAt now
    let sig1 := { sig with remainingSeconds := remainingSeconds }
    let s1 := { s with currentSignal := some sig1 }
    if remainingSeconds ≤ 0 then
      let r := clearCurrentSignal s1
      (r.1, some sig1 :: r.2)
    else
      (s1, [some sig1])

/-- `destroy()`: release the subscription, clear both intervals, empty the
buffer, drop the current signal and the id set.  It emits no subscriber
event: `onSignalUpdate` is never invoked on this path. -/
def destroy (_s : EngineState) : EngineState × List SignalEvent :=
  ({ currentSignal := none, tickBuffer := [], activeSignalIds := [],
     countdownRunning := false, signalGenRunning := false,
     subscribed := false, isInitialized := false },
   [])

/-! The raw-message layer of `connectToDerivAPI()`: the subscription callback
filters incoming messages by JS truthiness before `handleTickData` runs.
JS numbers at this layer are modelled with their non-finite values. -/

/-- A JS number as delivered by the upstream socket: NaN, an infinity, or a
finite value. -/
inductive JSNum
  | nan
  | posInf
  | negInf
  | num (q : ℚ)
deriving DecidableEq, Repr

/-- JS truthiness of a number: `0` and `NaN` are falsy, everything else —
including the infinities — is truthy. -/
def JSNum.truthy : JSNum → Bool
  | .nan => false
  | .posInf => true
  | .negInf => true
  | .num q => q ≠ 0

/-- `Number.isFinite`: true exactly on finite values. -/
def JSNum.isFinite : JSNum → Bool
  | .num _ => true
  | _ => false

/-- The `tick` field of a raw message; `quote` or `epoch` may be absent
(`undefined`). -/
structure RawTick where
  quote : Option JSNum
  epoch : Option JSNum
deriving DecidableEq, Repr

/-- A raw message from the tick subscription; the `tick` object itself may be
absent. -/
structure TickMessage where
  tick : Option RawTick
deriving DecidableEq, Repr

/-- A buffered sample at the raw-value layer. -/
structure RawTickData where
  quote : JSNum
  epoch : JSNum
deriving DecidableEq, Repr

/-- `handleTickData()` at the raw-value layer (same push-then-shift body). -/
def handleRawTickData (tickBuffer : List RawTickData) (tick : RawTickData) :
    List RawTickData :=
  let buffer := tickBuffer ++ [tick]
  if TICK_BUFFER_SIZE < buffer.length then buffer.tail else buffer

/-- The subscription callback from `connectToDerivAPI()`: ignore messages
without a `tick` object (warn only), ignore ticks whose `quote` or `epoch`
is falsy (warn only), otherwise pass the sample to `handleTickData`.  No
path throws. -/
def onTickMessage (tickBuffer : List RawTickData) (msg : TickMessage) :
    List RawTickData :=
  match msg.tick with
  | none => tickBuffer
  | some t =>
    match t.quote, t.epoch with
    | some q, some e =>
      if q.truthy && e.truthy then handleRawTickData tickBuffer { quote := q, epoch := e }
      else tickBuffer
    | _, _ => tickBuffer

/-! Views of the analyzer's intermediate values, shared by several claims. -/

/-- Last digits of a window of ticks (the `lastDigits` array). -/
def digitsOf (w : List TickData) : List ℕ := w.map fun tick => lastDigit tick.quote

/-- The analyzer's `overCount` of a window. -/
def overOf (w : List TickData) : ℕ := (digitsOf w).countP fun digit => 5 ≤ digit

/-- The analyzer's `underCount` of a window. -/
def underOf (w : List TickData) : ℕ := (digitsOf w).countP fun digit => ¬ 5 ≤ digit

/-! Concrete material shared by witnesses and counterexamples. -/

/-- A placeholder analysis value for building concrete states. -/
def dummyAnalysis : DistributionAnalysis :=
  { recentTicks := [], overCount := 0, underCount := 0, overPercentage := 0,
    underPercentage := 0, bias := Bias.NEUTRAL, confidenceScore := 50 }

/-- A concrete active signal (45 s of its 120 s still remaining). -/
def dummySig : SignalData :=
  { id := 0, type := Bias.UNDER, market := MARKET, confidence := 67,
    createdAt := 0, expiresAt := 120000, remainingSeconds := 45,
    distributionAnalysis := dummyAnalysis }

/-- A concrete engine state with an active signal mid-countdown. -/
def activeState : EngineState :=
  { currentSignal := some dummySig, tickBuffer := [], activeSignalIds := [0],
    countdownRunning := true, signalGenRunning := true, subscribed := true,
    isInitialized := true }

/-- A concrete tick (integer quote, so its last digit is 0: an UNDER tick). -/
def wTick : TickData := { quote := 0, epoch := 0 }

/-- A second distinct concrete tick. -/
def wTick2 : TickData := { quote := 1, epoch := 1 }

/-- A concrete tick whose price has last digit 5: an OVER sample. -/
def tickHigh : TickData := { quote := ((905 : ℕ) : ℚ) / 100, epoch := 0 }

/-- A 50-sample buffer with 31 OVER (62%) and 19 UNDER samples. -/
def buf62 : List TickData := List.replicate 31 tickHigh ++ List.replicate 19 wTick

/-- A 10-sample buffer, all OVER: below the 50-sample minimum. -/
def bufShort : List TickData := List.replicate 10 tickHigh

/-- A 4-sample balanced buffer: below the minimum, and NEUTRAL. -/
def bufNeut : List TickData := List.replicate 2 tickHigh ++ List.replicate 2 wTick

/-- A 60-sample buffer, all UNDER: longer than the 50-sample window. -/
def buf60 : List TickData := List.replicate 60 wTick

/-- A concrete idle engine state with an empty buffer. -/
def idleState : EngineState :=
  { currentSignal := none, tickBuffer := [], activeSignalIds := [],
    countdownRunning := false, signalGenRunning := false, subscribed := false,
    isInitialized := false }

/-- A concrete idle state whose buffer is `buf62`. -/
def fullState : EngineState :=
  { currentSignal := none, tickBuffer := buf62, activeSignalIds := [],
    countdownRunning := false, signalGenRunning := true, subscribed := true,
    isInitialized := true }

/-- A concrete idle state whose buffer is the short balanced `bufNeut`. -/
def neutState : EngineState :=
  { currentSignal := none, tickBuffer := bufNeut, activeSignalIds := [],
    countdownRunning := false, signalGenRunning := true, subscribed := true,
    isInitialized := true }

/-! C1 -/

/-- C1: at most one Signal is active at any instant — whenever a Signal is
currently active, the Idle-to-Active trigger `checkAndGenerateSignal` is a
no-op: it creates no new Signal, emits no event and leaves the whole engine
state unchanged; consequently any sequence of detection-poll firings leaves
the state unchanged. -/
theorem c1_active_signal_poll_noop (s : EngineState) (sig : SignalData) (now : ℤ)
    (times : List ℤ) (h : s.currentSignal = some sig) :
    checkAndGenerateSignal now s = (s, []) ∧
    times.foldl (fun st t => (checkAndGenerateSignal t st).1) s = s := by
  have hstep : ∀ (t : ℤ), checkAndGenerateSignal t s = (s, []) := fun t => by
    simp only [checkAndGenerateSignal, h]
  refine ⟨hstep now, ?_⟩
  induction times with
  | nil => rfl
  | cons t ts ih =>
    rw [List.foldl_cons, show (checkAndGenerateSignal t s).1 = s by rw [hstep t]]
    exact ih

/-- Witness for C1 at a concrete active state and a concrete poll sequence. -/
theorem c1_active_signal_poll_noop_witness :
    checkAndGenerateSignal 7 activeState = (activeState, []) ∧
    [1, 2, 3].foldl (fun st t => (checkAndGenerateSignal t st).1) activeState =
      activeState :=
  c1_active_signal_poll_noop activeState dummySig 7 [1, 2, 3] rfl

/-! C4 -/

/-- One ingest keeps the buffer within capacity. -/
theorem handleTickData_length_le (buf : List TickData) (t : TickData)
    (h : buf.length ≤ TICK_BUFFER_SIZE) :
    (handleTickData buf t).length ≤ TICK_BUFFER_SIZE := by
  simp only [handleTickData]
  split
  · simp only [List.length_tail, List.length_append, List.length_cons, List.length_nil]
    omega
  · next hle =>
    simp only [List.length_append, List.length_cons, List.length_nil] at hle ⊢
    omega

/-- Ingesting any sequence of ticks into an initially within-capacity buffer
keeps the buffer within capacity. -/
theorem foldl_handleTickData_length (ticks : List TickData) (buf : List TickData)
    (h : buf.length ≤ TICK_BUFFER_SIZE) :
    (ticks.foldl handleTickData buf).length ≤ TICK_BUFFER_SIZE := by
  induction ticks generalizing buf with
  | nil => simpa using h
  | cons t ts ih => exact ih _ (handleTickData_length_le buf t h)

/-- At capacity, one ingest evicts exactly the oldest sample and appends the
new one at the end. -/
theorem handleTickData_at_capacity (buf : List TickData) (t : TickData)
    (h : buf.length = TICK_BUFFER_SIZE) :
    handleTickData buf t = buf.tail ++ [t] := by
  simp only [handleTickData]
  have hc : TICK_BUFFER_SIZE < (buf ++ [t]).length := by
    simp [List.length_append, h]
  rw [if_pos hc]
  cases buf with
  | nil => simp [TICK_BUFFER_SIZE] at h
  | cons x xs => simp

/-- C4: the capacity is 100; for every sequence of ingested samples, starting
from the empty buffer, the Buffer length never exceeds the capacity; and once
capacity is reached, each further ingest drops exactly the oldest sample
(the head) and appends the new one at the end, preserving the order of the
remaining samples. -/
theorem c4_buffer_capacity_fifo :
    TICK_BUFFER_SIZE = 100 ∧
    (∀ ticks : List TickData,
      (ticks.foldl handleTickData []).length ≤ TICK_BUFFER_SIZE) ∧
    (∀ (buf : List TickData) (t : TickData), buf.length = TICK_BUFFER_SIZE →
      handleTickData buf t = buf.tail ++ [t]) := by
  refine ⟨rfl, ?_, handleTickData_at_capacity⟩
  intro ticks
  exact foldl_handleTickData_length ticks [] (by simp)

/-- Witness for C4: 150 ingested ticks stay within capacity, and an ingest at
capacity evicts exactly the oldest element. -/
theorem c4_buffer_capacity_fifo_witness :
    ((List.replicate 150 wTick).foldl handleTickData []).length ≤ TICK_BUFFER_SIZE ∧
    handleTickData (List.replicate 100 wTick) wTick2 =
      (List.replicate 100 wTick).tail ++ [wTick2] :=
  ⟨c4_buffer_capacity_fifo.2.1 _,
   c4_buffer_capacity_fifo.2.2 _ _ (by simp [TICK_BUFFER_SIZE])⟩

/-! Lemmas about the analyzer, used by several claims. -/

/-- Evaluation of `lastDigit` at a two-decimal price `n / 100`. -/
theorem lastDigit_natCast_div100 (n : ℕ) : lastDigit ((n : ℚ) / 100) = n % 10 := by
  unfold lastDigit
  rw [div_mul_cancel₀ ((n : ℚ)) (by norm_num : (100 : ℚ) ≠ 0)]
  rw [Int.floor_natCast]
  simp

/-- Every sample of a window is classified: over-count plus under-count is the
window length. -/
theorem overOf_add_underOf (w : List TickData) : overOf w + underOf w = w.length := by
  unfold overOf underOf digitsOf
  induction w with
  | nil => rfl
  | cons t ts ih =>
    simp only [List.map_cons, List.countP_cons, List.length_cons]
    by_cases hd : 5 ≤ lastDigit t.quote <;>
      simp [hd, List.countP_map] at ih ⊢ <;> omega

/-- The analyzer only looks at the last `MIN_TICKS_FOR_ANALYSIS` samples:
analysing a buffer equals analysing its trailing window. -/
theorem analyzeDistribution_eq_window (buf : List TickData) :
    analyzeDistribution buf =
      analyzeDistribution (buf.drop (buf.length - MIN_TICKS_FOR_ANALYSIS)) := by
  conv_rhs => rw [analyzeDistribution]
  have hlen : (buf.drop (buf.length - MIN_TICKS_FOR_ANALYSIS)).length =
      buf.length - (buf.length - MIN_TICKS_FOR_ANALYSIS) := List.length_drop _ _
  have hz : (buf.drop (buf.length - MIN_TICKS_FOR_ANALYSIS)).length -
      MIN_TICKS_FOR_ANALYSIS = 0 := by
    rw [hlen]; unfold MIN_TICKS_FOR_ANALYSIS; omega
  rw [hz, List.drop_zero, analyzeDistribution]

/-- Full characterization of the analyzer on a 50-sample window, in terms of
integer digit counts: percentages are twice the counts, the dominance test
`> 60%` becomes `count > 30`, and the bias names the side opposite to the
dominant one. -/
theorem analyzeDistribution_at50 (w : List TickData) (h : w.length = 50) :
    analyzeDistribution w =
      { recentTicks := digitsOf w,
        overCount := overOf w, underCount := underOf w,
        overPercentage := 2 * (overOf w : ℚ),
        underPercentage := 2 * (underOf w : ℚ),
        bias := if 30 < overOf w then Bias.UNDER
          else if 30 < underOf w then Bias.OVER else Bias.NEUTRAL,
        confidenceScore := if 30 < overOf w then min 95 (2 * (overOf w : ℚ) + 5)
          else if 30 < underOf w then min 95 (2 * (underOf w : ℚ) + 5) else 50 } := by
  have hz : w.length - MIN_TICKS_FOR_ANALYSIS = 0 := by
    rw [h]; unfold MIN_TICKS_FOR_ANALYSIS; omega
  have htot : (w.map fun tick => lastDigit tick.quote).length = 50 := by
    simp [h]
  have hpct : ∀ n : ℕ, ((n : ℚ) / ((50 : ℕ) : ℚ)) * 100 = 2 * (n : ℚ) := by
    intro n
    have : ((50 : ℕ) : ℚ) ≠ 0 := by norm_num
    field_simp
    ring
  have hcond : ∀ n : ℕ, ((60 : ℚ) < 2 * (n : ℚ)) = (30 < n) := by
    intro n
    apply propext
    constructor
    · intro hn
      have : (30 : ℚ) < (n : ℚ) := by linarith
      exact_mod_cast this
    · intro hn
      have : (30 : ℚ) < (n : ℚ) := by exact_mod_cast hn
      linarith
  simp only [analyzeDistribution, hz, List.drop_zero, htot, hpct]
  simp only [digitsOf, overOf, underOf, hcond]
  split_ifs <;> rfl

/-! C6 -/

/-- C6 counterexample: at a concrete state whose Signal is mid-countdown with
45 seconds remaining, `destroy` emits no subscriber event at all — in
particular no null-Signal (clear-to-Idle) notification, contrary to the
claim that teardown immediately notifies subscribers. -/
theorem c6_counterexample :
    activeState.currentSignal = some dummySig ∧
    dummySig.remainingSeconds = 45 ∧
    (destroy activeState).2 = [] :=
  ⟨rfl, rfl, rfl⟩

/-- C6 amended: `destroy` synchronously resets everything — it cancels both
engine timers, releases the upstream subscription, empties the Buffer,
clears the id set and resets the active-Signal slot to empty — but it does
not notify subscribers: no clear-to-Idle (null Signal) event is emitted. -/
theorem c6_destroy_resets_without_notification (s : EngineState) :
    (destroy s).1.currentSignal = none ∧
    (destroy s).1.tickBuffer = [] ∧
    (destroy s).1.activeSignalIds = [] ∧
    (destroy s).1.countdownRunning = false ∧
    (destroy s).1.signalGenRunning = false ∧
    (destroy s).1.subscribed = false ∧
    (destroy s).1.isInitialized = false ∧
    (destroy s).2 = [] :=
  ⟨rfl, rfl, rfl, rfl, rfl, rfl, rfl, rfl⟩

/-- Counting over a replicated list. -/
theorem countP_replicate {α : Type} (p : α → Bool) (n : ℕ) (a : α) :
    (List.replicate n a).countP p = if p a then n else 0 := by
  induction n with
  | zero => simp
  | succ k ih =>
    rw [List.replicate_succ, List.countP_cons, ih]
    by_cases hp : p a <;> simp [hp]

/-- The concrete OVER tick has last digit 5. -/
theorem lastDigit_tickHigh : lastDigit tickHigh.quote = 5 := by
  rw [show tickHigh.quote = ((905 : ℕ) : ℚ) / 100 from rfl, lastDigit_natCast_div100]

/-- The concrete UNDER tick has last digit 0. -/
theorem lastDigit_wTick : lastDigit wTick.quote = 0 := by
  rw [show wTick.quote = 0 from rfl]
  unfold lastDigit
  norm_num

/-- The 62% buffer has 50 samples. -/
theorem buf62_length : buf62.length = 50 := by simp [buf62]

/-- The 62% buffer has 31 OVER samples. -/
theorem overOf_buf62 : overOf buf62 = 31 := by
  unfold overOf digitsOf buf62
  simp [List.map_append, List.map_replicate, List.countP_append, countP_replicate,
    lastDigit_tickHigh, lastDigit_wTick]

/-- `Math.round` of an integer-valued score is that integer. -/
theorem jsRound_intCast (n : ℤ) : jsRound ((n : ℤ) : ℚ) = n := by
  unfold jsRound
  have h : ⌊(1 / 2 : ℚ)⌋ = 0 := by
    rw [Int.floor_eq_zero_iff, Set.mem_Ico]
    norm_num
  rw [Int.floor_int_add, h, add_zero]

/-! C2 -/

/-- C2 counterexample: on a 50-sample window with 62% OVER (spec HIGH)
samples — the closest realizable dominance to the claimed 61% — the Analyzer
itself already reports the mean-reverted side UNDER (spec LOW) as its bias,
not the dominant side, and `generateSignal` copies that bias unchanged into
the emitted Signal: no inversion happens in the Controller. -/
theorem c2_counterexample :
    (analyzeDistribution buf62).overPercentage = 62 ∧
    (analyzeDistribution buf62).bias = Bias.UNDER ∧
    (analyzeDistribution buf62).bias ≠ Bias.OVER ∧
    ((generateSignal 1000 (analyzeDistribution buf62) idleState).1.currentSignal.map
        fun sig => sig.type) = some Bias.UNDER := by
  have ha := analyzeDistribution_at50 buf62 buf62_length
  have h31 : 30 < overOf buf62 := by rw [overOf_buf62]; norm_num
  refine ⟨?_, ?_, ?_, ?_⟩
  · rw [ha, overOf_buf62]
    norm_num
  · rw [ha]
    simp [h31]
  · rw [ha]
    simp [h31]
  · have hid : (1000 : ℤ) ∉ idleState.activeSignalIds := by simp [idleState]
    simp only [generateSignal, if_neg hid]
    rw [ha]
    simp [h31]

/-- C2 amended: a 50-sample window cannot have exactly 61% high-classified
samples (its percentage is twice an integer count, hence even); whenever the
high side is dominant (share above 60%, i.e. more than 30 of 50 samples),
the Analyzer itself reports the mean-reverted bias LOW (UNDER) with
confidence `min 95 (share + 5)`, and the Controller's `generateSignal`
copies the Analyzer's bias into the Signal classification without inverting
it. -/
theorem c2_mean_reversion_in_analyzer (w : List TickData) (now : ℤ) (s : EngineState)
    (h : w.length = 50) (hid : now ∉ s.activeSignalIds) :
    (analyzeDistribution w).overPercentage = 2 * (overOf w : ℚ) ∧
    (analyzeDistribution w).overPercentage ≠ 61 ∧
    (30 < overOf w →
      (analyzeDistribution w).bias = Bias.UNDER ∧
      (analyzeDistribution w).confidenceScore = min 95 (2 * (overOf w : ℚ) + 5)) ∧
    (∃ sig : SignalData,
      (generateSignal now (analyzeDistribution w) s).1.currentSignal = some sig ∧
      sig.type = (analyzeDistribution w).bias) := by
  have ha := analyzeDistribution_at50 w h
  refine ⟨by rw [ha], ?_, ?_, ?_⟩
  · rw [ha]
    intro hx
    simp only at hx
    have h2 : ((2 * overOf w : ℕ) : ℚ) = 61 := by push_cast; linarith
    have h3 : (2 * overOf w : ℕ) = 61 := by exact_mod_cast h2
    omega
  · intro h30
    rw [ha]
    simp [h30]
  · refine ⟨{ id := now, type := (analyzeDistribution w).bias, market := MARKET,
               confidence := jsRound (analyzeDistribution w).confidenceScore,
               createdAt := now, expiresAt := now + SIGNAL_DURATION * 1000,
               remainingSeconds := SIGNAL_DURATION,
               distributionAnalysis := analyzeDistribution w }, ?_, rfl⟩
    simp only [generateSignal, if_neg hid]

/-- Witness for the amended C2 at the concrete 62% buffer. -/
theorem c2_mean_reversion_in_analyzer_witness :
    (analyzeDistribution buf62).overPercentage = 2 * (overOf buf62 : ℚ) ∧
    (analyzeDistribution buf62).overPercentage ≠ 61 ∧
    (30 < overOf buf62 →
      (analyzeDistribution buf62).bias = Bias.UNDER ∧
      (analyzeDistribution buf62).confidenceScore = min 95 (2 * (overOf buf62 : ℚ) + 5)) ∧
    (∃ sig : SignalData,
      (generateSignal 42 (analyzeDistribution buf62) idleState).1.currentSignal = some sig ∧
      sig.type = (analyzeDistribution buf62).bias) :=
  c2_mean_reversion_in_analyzer buf62 42 idleState buf62_length (by simp [idleState])

/-! C3 -/

/-- C3 counterexample: the analysis itself has no minimum-sample guard — on a
concrete 10-sample buffer (all OVER), it produces a non-NEUTRAL bias with
confidence 95, not the claimed NEUTRAL bias with confidence 0. -/
theorem c3_counterexample :
    bufShort.length < 50 ∧
    (analyzeDistribution bufShort).bias = Bias.UNDER ∧
    (analyzeDistribution bufShort).bias ≠ Bias.NEUTRAL ∧
    (analyzeDistribution bufShort).confidenceScore = 95 ∧
    (analyzeDistribution bufShort).confidenceScore ≠ 0 := by
  have heval : analyzeDistribution bufShort =
      { recentTicks := List.replicate 10 5, overCount := 10, underCount := 0,
        overPercentage := 100, underPercentage := 0,
        bias := Bias.UNDER, confidenceScore := 95 } := by
    unfold analyzeDistribution bufShort
    norm_num [MIN_TICKS_FOR_ANALYSIS, List.map_replicate, lastDigit_tickHigh,
      countP_replicate, min_def]
  refine ⟨by simp [bufShort], ?_, ?_, ?_, ?_⟩ <;> rw [heval] <;> simp

/-- C3 amended: for every buffer holding fewer than 50 samples, the detection
poll returns early without invoking the Analyzer, so no snapshot is produced
and no Signal is created — the whole poll is a no-op (a non-error).  The
Analyzer itself has no minimum-size guard, and when its snapshot is NEUTRAL
its confidence is the default 50, not 0. -/
theorem c3_short_buffer_poll_noop (s : EngineState) (now : ℤ)
    (hIdle : s.currentSignal = none)
    (hlen : s.tickBuffer.length < MIN_TICKS_FOR_ANALYSIS) :
    checkAndGenerateSignal now s = (s, []) ∧
    ((analyzeDistribution s.tickBuffer).bias = Bias.NEUTRAL →
      (analyzeDistribution s.tickBuffer).confidenceScore = 50) := by
  constructor
  · simp only [checkAndGenerateSignal, hIdle]
    rw [if_pos hlen]
  · intro hb
    simp only [analyzeDistribution] at hb ⊢
    split_ifs at hb ⊢
    simp_all

/-- Witness for the amended C3 at a concrete 4-sample balanced buffer. -/
theorem c3_short_buffer_poll_noop_witness :
    checkAndGenerateSignal 3 neutState = (neutState, []) ∧
    ((analyzeDistribution neutState.tickBuffer).bias = Bias.NEUTRAL →
      (analyzeDistribution neutState.tickBuffer).confidenceScore = 50) :=
  c3_short_buffer_poll_noop neutState 3 rfl
    (by simp [neutState, bufNeut, MIN_TICKS_FOR_ANALYSIS])

/-! C5 -/

/-- C5: for any idle engine whose 50-sample buffer has 31 OVER-classified
(spec: high) samples — 62% — and 19 UNDER, the Analyzer's snapshot has
confidence 67 (and already carries the mean-reverted bias UNDER), and the
detection poll emits exactly one Signal whose classification is UNDER (spec
LOW), whose confidence is 67, and whose expiry is its creation time plus
120 seconds (120000 ms). -/
theorem c5_scenario_62pct (s : EngineState) (now : ℤ)
    (hIdle : s.currentSignal = none)
    (hlen : s.tickBuffer.length = 50)
    (hover : overOf s.tickBuffer = 31)
    (hid : now ∉ s.activeSignalIds) :
    (analyzeDistribution s.tickBuffer).confidenceScore = 67 ∧
    (analyzeDistribution s.tickBuffer).underCount = 19 ∧
    ∃ sig : SignalData,
      (checkAndGenerateSignal now s).1.currentSignal = some sig ∧
      (checkAndGenerateSignal now s).2 = [some sig] ∧
      sig.type = Bias.UNDER ∧
      sig.confidence = 67 ∧
      sig.createdAt = now ∧
      sig.expiresAt = now + 120 * 1000 := by
  have ha := analyzeDistribution_at50 s.tickBuffer hlen
  have hadd := overOf_add_underOf s.tickBuffer
  have h30 : 30 < overOf s.tickBuffer := by omega
  have hconf : (analyzeDistribution s.tickBuffer).confidenceScore = 67 := by
    rw [ha]
    simp only [h30, if_true, hover]
    norm_num [min_def]
  have hbias : (analyzeDistribution s.tickBuffer).bias = Bias.UNDER := by
    rw [ha]
    simp [h30]
  have hunder : (analyzeDistribution s.tickBuffer).underCount = 19 := by
    rw [ha]
    simp only
    omega
  refine ⟨hconf, hunder, ?_⟩
  have hnn : ¬ s.tickBuffer.length < MIN_TICKS_FOR_ANALYSIS := by
    rw [hlen]
    unfold MIN_TICKS_FOR_ANALYSIS
    omega
  have hct : ¬ (analyzeDistribution s.tickBuffer).confidenceScore < CONFIDENCE_THRESHOLD := by
    rw [hconf]
    unfold CONFIDENCE_THRESHOLD
    norm_num
  have hne : (analyzeDistribution s.tickBuffer).bias ≠ Bias.NEUTRAL := by
    rw [hbias]
    simp
  have hpoll : checkAndGenerateSignal now s =
      generateSignal now (analyzeDistribution s.tickBuffer) s := by
    simp only [checkAndGenerateSignal, hIdle]
    rw [if_neg hnn, if_neg hct, if_pos (by simpa using hne)]
  refine ⟨{ id := now, type := (analyzeDistribution s.tickBuffer).bias, market := MARKET,
             confidence := jsRound (analyzeDistribution s.tickBuffer).confidenceScore,
             createdAt := now, expiresAt := now + SIGNAL_DURATION * 1000,
             remainingSeconds := SIGNAL_DURATION,
             distributionAnalysis := analyzeDistribution s.tickBuffer }, ?_, ?_, ?_, ?_, rfl, ?_⟩
  · rw [hpoll]
    simp only [generateSignal, if_neg hid]
  · rw [hpoll]
    simp only [generateSignal, if_neg hid]
  · simp only [hbias]
  · simp only [hconf]
    exact jsRound_intCast 67
  · unfold SIGNAL_DURATION
    norm_num

/-- Witness for C5 at the concrete 62% buffer. -/
theorem c5_scenario_62pct_witness :
    (analyzeDistribution fullState.tickBuffer).confidenceScore = 67 ∧
    (analyzeDistribution fullState.tickBuffer).underCount = 19 ∧
    ∃ sig : SignalData,
      (checkAndGenerateSignal 555 fullState).1.currentSignal = some sig ∧
      (checkAndGenerateSignal 555 fullState).2 = [some sig] ∧
      sig.type = Bias.UNDER ∧
      sig.confidence = 67 ∧
      sig.createdAt = 555 ∧
      sig.expiresAt = 555 + 120 * 1000 :=
  c5_scenario_62pct fullState 555 rfl buf62_length overOf_buf62 (by simp [fullState])

/-! C7 -/

/-- C7 counterexample: on a concrete 60-sample buffer the analysis
classifies only the trailing 50-sample window — over-count plus under-count
is 50, not the buffer length 60. -/
theorem c7_counterexample :
    buf60.length = 60 ∧
    (analyzeDistribution buf60).overCount + (analyzeDistribution buf60).underCount = 50 ∧
    (analyzeDistribution buf60).overCount + (analyzeDistribution buf60).underCount ≠
      buf60.length := by
  have hw : buf60.drop (buf60.length - MIN_TICKS_FOR_ANALYSIS) =
      List.replicate 50 wTick := by
    simp [buf60, MIN_TICKS_FOR_ANALYSIS, List.drop_replicate]
  have ha : analyzeDistribution buf60 = analyzeDistribution (List.replicate 50 wTick) := by
    rw [analyzeDistribution_eq_window buf60, hw]
  have hb := analyzeDistribution_at50 (List.replicate 50 wTick) (by simp)
  have hadd : overOf (List.replicate 50 wTick) + underOf (List.replicate 50 wTick) = 50 := by
    simpa using overOf_add_underOf (List.replicate 50 wTick)
  have h60 : buf60.length = 60 := by simp [buf60]
  refine ⟨h60, ?_, ?_⟩
  · rw [ha, hb]
    exact hadd
  · rw [ha, hb, h60]
    show overOf (List.replicate 50 wTick) + underOf (List.replicate 50 wTick) ≠ 60
    omega

/-- C7 amended: for every buffer holding at least 50 samples, the analysis
classifies every sample of the trailing 50-sample window — over-count plus
under-count equals 50, the snapshot's digit list has 50 entries, and the
whole analysis depends only on that window (samples older than the last 50
do not contribute). -/
theorem c7_window_partition (buf : List TickData) (h : 50 ≤ buf.length) :
    (analyzeDistribution buf).overCount + (analyzeDistribution buf).underCount = 50 ∧
    (analyzeDistribution buf).recentTicks.length = 50 ∧
    analyzeDistribution buf = analyzeDistribution (buf.drop (buf.length - 50)) := by
  have hwin : (buf.drop (buf.length - MIN_TICKS_FOR_ANALYSIS)).length = 50 := by
    rw [List.length_drop]
    unfold MIN_TICKS_FOR_ANALYSIS
    omega
  have hw := analyzeDistribution_eq_window buf
  have ha := analyzeDistribution_at50 _ hwin
  have hadd := overOf_add_underOf (buf.drop (buf.length - MIN_TICKS_FOR_ANALYSIS))
  refine ⟨?_, ?_, ?_⟩
  · rw [hw, ha]
    simp only
    omega
  · rw [hw, ha]
    simp only [digitsOf, List.length_map]
    omega
  · exact hw

/-- Witness for the amended C7 at the concrete 60-sample buffer. -/
theorem c7_window_partition_witness :
    (analyzeDistribution buf60).overCount + (analyzeDistribution buf60).underCount = 50 ∧
    (analyzeDistribution buf60).recentTicks.length = 50 ∧
    analyzeDistribution buf60 = analyzeDistribution (buf60.drop (buf60.length - 50)) :=
  c7_window_partition buf60 (by simp [buf60])

/-! C10 -/

/-- C10: on a full 50-sample window, a non-NEUTRAL snapshot always has
confidence at least 67, strictly above the 65 threshold, so the confidence
gate of the detection poll never blocks a non-neutral snapshot: an idle
engine emits a Signal from every non-neutral analysis. -/
theorem c10_confidence_gate_never_blocks (s : EngineState) (now : ℤ)
    (hIdle : s.currentSignal = none)
    (hlen : s.tickBuffer.length = 50)
    (hbias : (analyzeDistribution s.tickBuffer).bias ≠ Bias.NEUTRAL)
    (hid : now ∉ s.activeSignalIds) :
    67 ≤ (analyzeDistribution s.tickBuffer).confidenceScore ∧
    ¬ ((analyzeDistribution s.tickBuffer).confidenceScore < CONFIDENCE_THRESHOLD) ∧
    ((checkAndGenerateSignal now s).1.currentSignal).isSome = true := by
  have ha := analyzeDistribution_at50 s.tickBuffer hlen
  have hadd := overOf_add_underOf s.tickBuffer
  have hconf : 67 ≤ (analyzeDistribution s.tickBuffer).confidenceScore := by
    rw [ha]
    simp only
    by_cases h1 : 30 < overOf s.tickBuffer
    · simp only [h1, if_true]
      have h31 : (31 : ℚ) ≤ (overOf s.tickBuffer : ℚ) := by exact_mod_cast h1
      rw [le_min_iff]
      constructor <;> linarith
    · by_cases h2 : 30 < underOf s.tickBuffer
      · simp only [h1, h2, if_false, if_true]
        have h31 : (31 : ℚ) ≤ (underOf s.tickBuffer : ℚ) := by exact_mod_cast h2
        rw [le_min_iff]
        constructor <;> linarith
      · exfalso
        apply hbias
        rw [ha]
        simp [h1, h2]
  have hct : ¬ (analyzeDistribution s.tickBuffer).confidenceScore < CONFIDENCE_THRESHOLD := by
    unfold CONFIDENCE_THRESHOLD
    intro hx
    linarith
  refine ⟨hconf, hct, ?_⟩
  have hnn : ¬ s.tickBuffer.length < MIN_TICKS_FOR_ANALYSIS := by
    rw [hlen]
    unfold MIN_TICKS_FOR_ANALYSIS
    omega
  have hpoll : checkAndGenerateSignal now s =
      generateSignal now (analyzeDistribution s.tickBuffer) s := by
    simp only [checkAndGenerateSignal, hIdle]
    rw [if_neg hnn, if_neg hct, if_pos (by simpa using hbias)]
  rw [hpoll]
  simp only [generateSignal, if_neg hid]
  rfl

/-- Witness for C10 at the concrete 62% buffer. -/
theorem c10_confidence_gate_never_blocks_witness :
    67 ≤ (analyzeDistribution fullState.tickBuffer).confidenceScore ∧
    ¬ ((analyzeDistribution fullState.tickBuffer).confidenceScore < CONFIDENCE_THRESHOLD) ∧
    ((checkAndGenerateSignal 777 fullState).1.currentSignal).isSome = true :=
  c10_confidence_gate_never_blocks fullState 777 rfl buf62_length
    (by
      show (analyzeDistribution buf62).bias ≠ Bias.NEUTRAL
      rw [analyzeDistribution_at50 buf62 buf62_length, overOf_buf62]
      simp)
    (by simp [fullState])

/-- `Math.floor` of an integer number of milliseconds divided by 1000 is
integer floor division (the `Div Int` instance, Euclidean for a positive
divisor). -/
theorem floor_div_1000 (m : ℤ) : ⌊(m : ℚ) / 1000⌋ = m / 1000 := by
  have h := Rat.floor_intCast_div_natCast m 1000
  push_cast at h
  exact_mod_cast h

/-- The remaining-time recomputation as integer arithmetic. -/
theorem remainingSecondsCalc_eq (expiresAt now : ℤ) :
    remainingSecondsCalc expiresAt now = max 0 ((expiresAt - now) / 1000) := by
  unfold remainingSecondsCalc
  rw [floor_div_1000]

/-! C8 -/

/-- C8: while a Signal is active, the remaining time recomputed by the
countdown callback is never negative; it is non-increasing as the clock
advances; on the 1-second tick schedule (tick number k at `createdAt +
1000·k`, with `expiresAt = createdAt + 120000`) it is zero exactly from the
expiry instant on; each tick publishes the signal updated with the
recomputed value; and a tick that computes zero clears the signal —
transitioning to Idle — and emits the cleared (null) notification. -/
theorem c8_remaining_time_countdown (s : EngineState) (sig : SignalData)
    (now now2 k : ℤ)
    (hsig : s.currentSignal = some sig)
    (hle : now ≤ now2)
    (hk : now = sig.createdAt + 1000 * k)
    (hexp : sig.expiresAt = sig.createdAt + 120000) :
    0 ≤ remainingSecondsCalc sig.expiresAt now ∧
    remainingSecondsCalc sig.expiresAt now2 ≤ remainingSecondsCalc sig.expiresAt now ∧
    (remainingSecondsCalc sig.expiresAt now = 0 ↔ sig.expiresAt ≤ now) ∧
    (countdownTick now s).2.head? =
      some (some { sig with remainingSeconds := remainingSecondsCalc sig.expiresAt now }) ∧
    (remainingSecondsCalc sig.expiresAt now = 0 →
      (countdownTick now s).1.currentSignal = none ∧
      Option.none ∈ (countdownTick now s).2) := by
  have he1 := remainingSecondsCalc_eq sig.expiresAt now
  have he2 := remainingSecondsCalc_eq sig.expiresAt now2
  refine ⟨by omega, by omega, by omega, ?_, ?_⟩
  · simp only [countdownTick, hsig]
    split
    · rfl
    · rfl
  · intro h0
    simp only [countdownTick, hsig, h0]
    norm_num [clearCurrentSignal]

/-- Witness for C8: the concrete mid-countdown state at tick 75 of the
schedule (75 seconds after creation), with a later clock reading one second
on. -/
theorem c8_remaining_time_countdown_witness :
    0 ≤ remainingSecondsCalc dummySig.expiresAt 75000 ∧
    remainingSecondsCalc dummySig.expiresAt 76000 ≤
      remainingSecondsCalc dummySig.expiresAt 75000 ∧
    (remainingSecondsCalc dummySig.expiresAt 75000 = 0 ↔ dummySig.expiresAt ≤ 75000) ∧
    (countdownTick 75000 activeState).2.head? =
      some (some { dummySig with
        remainingSeconds := remainingSecondsCalc dummySig.expiresAt 75000 }) ∧
    (remainingSecondsCalc dummySig.expiresAt 75000 = 0 →
      (countdownTick 75000 activeState).1.currentSignal = none ∧
      Option.none ∈ (countdownTick 75000 activeState).2) :=
  c8_remaining_time_countdown activeState dummySig 75000 76000 75 rfl (by norm_num)
    (by norm_num [dummySig]) (by norm_num [dummySig])

/-! C9 -/

/-- C9 counterexample: a delivered sample whose value is `Infinity` — not a
finite number — passes the truthiness check and is appended to the Buffer,
so ingestion does not restrict the Buffer to finite numeric values. -/
theorem c9_counterexample :
    JSNum.posInf.isFinite = false ∧
    onTickMessage []
        { tick := some { quote := some JSNum.posInf, epoch := some (JSNum.num 1) } } =
      [{ quote := JSNum.posInf, epoch := JSNum.num 1 }] := by
  constructor
  · rfl
  · simp [onTickMessage, JSNum.truthy, handleRawTickData, TICK_BUFFER_SIZE]

/-- C9 amended: the subscription callback filters by JS truthiness, not
finiteness.  Every delivered message either leaves the Buffer unchanged —
the sample is dropped silently, the callback is total and never raises —
or carries a tick whose `quote` and `epoch` are both present and truthy
(non-zero, non-NaN; this includes the non-finite infinities), in which case
exactly that sample enters the Buffer through the ordinary ingest path. -/
theorem c9_truthiness_filter (buf : List RawTickData) (msg : TickMessage) :
    onTickMessage buf msg = buf ∨
    ∃ (t : RawTick) (q e : JSNum),
      msg.tick = some t ∧ t.quote = some q ∧ t.epoch = some e ∧
      q.truthy = true ∧ e.truthy = true ∧
      onTickMessage buf msg = handleRawTickData buf { quote := q, epoch := e } := by
  obtain ⟨mt⟩ := msg
  cases mt with
  | none => exact Or.inl rfl
  | some t =>
    obtain ⟨tq, te⟩ := t
    cases tq with
    | none => exact Or.inl rfl
    | some q =>
      cases te with
      | none => exact Or.inl rfl
      | some e =>
        by_cases htr : (q.truthy && e.truthy) = true
        · right
          obtain ⟨h1, h2⟩ := Bool.and_eq_true_iff.mp htr
          exact ⟨{ quote := some q, epoch := some e }, q, e, rfl, rfl, rfl, h1, h2,
            by simp [onTickMessage, htr]⟩
        · left
          simp [onTickMessage, htr]
